import Mathlib

/-!
Verification development for the tfrt asynchronous runtime core:
the Future/async-value primitive, the error short-circuit of dispatch,
the op-handler fallback chain (GpuOpHandler), the fixed-capacity work
queue, and the distributed-context protocol.

Definitions are shallow embeddings of the corresponding C++ source
(`gpu_op_handler.cc`, `task_queue.cc`, `remote_message.proto`,
`sync_basics.mlir`); code of the repository that is absent from the
sampled sources (the AsyncValue implementation, the TaskQueue ring
buffer, the distributed request handlers, `ExecuteOnOpHandler`) is
modelled from the design spec, as marked in each doc comment.
-/

namespace Tfrt

/-! ## Future / AsyncValue (spec §3, §4.1)

Modelled from the spec: the AsyncValue implementation is not among the
sampled sources.  A Future is a single-assignment container with state
`Unresolved | Concrete v | Failed e`, an ordered list of continuations
registered before resolution, and the invariant that a terminal state
never changes. -/

/-- State of a Future: unresolved, or one of the two terminal states. -/
inductive FutureState (α : Type) where
  | Unresolved : FutureState α
  | Concrete : α → FutureState α
  | Failed : String → FutureState α
  deriving DecidableEq, Repr

namespace FutureState

/-- A state is terminal iff it is `Concrete` or `Failed`. -/
def isTerminal {α : Type} : FutureState α → Bool
  | .Unresolved => false
  | .Concrete _ => true
  | .Failed _ => true

end FutureState

/-- Modelled from the spec: the observable state of one Future together
with its continuation bookkeeping.  `pending` holds the continuations
(identified by numeric ids) registered before resolution, in
registration order; `ran` is the log, in order, of continuations that
have been run; `doubleResolve` records that a second resolution was
attempted (a fatal programming error in the runtime, here a flag so the
rejection is observable). -/
structure FutSys (α : Type) where
  state : FutureState α
  pending : List Nat
  ran : List Nat
  doubleResolve : Bool
  deriving DecidableEq, Repr

/-- A freshly created unresolved Future (`MakeUnresolved`). -/
def FutSys.mkUnresolved (α : Type) : FutSys α :=
  { state := .Unresolved, pending := [], ran := [], doubleResolve := false }

/-- Events observable on one Future: `AndThen` registration of a
continuation, and a resolution attempt with a terminal outcome. -/
inductive FutEvent (α : Type) where
  | register : Nat → FutEvent α
  | resolve : FutureState α → FutEvent α

/-- Modelled from the spec: one step of the Future state machine.
`AndThen` on an unresolved Future queues the continuation; on a
resolved Future it runs the continuation immediately.  Resolution of an
unresolved Future sets the terminal state and runs all pending
continuations in registration order; a second resolution attempt is
rejected (state and value unchanged, fatal flag raised). -/
def FutSys.step {α : Type} (s : FutSys α) : FutEvent α → FutSys α
  | .register cid =>
      if s.state.isTerminal then
        { s with ran := s.ran ++ [cid] }
      else
        { s with pending := s.pending ++ [cid] }
  | .resolve o =>
      if s.state.isTerminal then
        { s with doubleResolve := true }
      else
        { s with state := o, pending := [], ran := s.ran ++ s.pending }

/-- Run a Future through a list of events from its creation. -/
def FutSys.run {α : Type} (es : List (FutEvent α)) : FutSys α :=
  es.foldl FutSys.step (FutSys.mkUnresolved α)

/-- The continuation ids registered by a list of events, in order. -/
def registeredIds {α : Type} : List (FutEvent α) → List Nat
  | [] => []
  | .register cid :: es => cid :: registeredIds es
  | .resolve _ :: es => registeredIds es

/-- The terminal outcome of the first well-formed resolution in a list
of events, if any (events are well-formed when every resolution carries
a terminal state). -/
def firstOutcome {α : Type} : List (FutEvent α) → Option (FutureState α)
  | [] => none
  | .register _ :: es => firstOutcome es
  | .resolve o :: es => if o.isTerminal then some o else firstOutcome es

/-- Events are well-formed when every `resolve` carries a terminal
outcome (the runtime only ever resolves to `Concrete` or `Failed`). -/
def eventsWF {α : Type} : List (FutEvent α) → Prop
  | [] => True
  | .register _ :: es => eventsWF es
  | .resolve o :: es => o.isTerminal = true ∧ eventsWF es

/-! ## Error short-circuit of dispatch (spec §4.1, §7) -/

/-- The first `Failed` state among the inputs, if any. -/
def firstFailure {α : Type} : List (FutureState α) → Option String
  | [] => none
  | .Failed e :: _ => some e
  | _ :: rest => firstFailure rest

/-- `true` iff some input Future is in the `Failed` state. -/
def anyInputFailed {α : Type} (inputs : List (FutureState α)) : Bool :=
  inputs.any fun s => match s with
    | .Failed _ => true
    | _ => false

/-- Result of one dispatch invocation: the states the declared output
Futures resolve to, and whether the op's dispatch function was invoked
(the observable proxy for the op's side effects). -/
structure DispatchResult (α : Type) where
  outputs : List (FutureState α)
  dispatchRan : Bool
  deriving DecidableEq, Repr

/-- Modelled from the spec: the error short-circuit of the dispatch
path (`ExecuteOnOpHandler` / `dispatch_utils`, not among the sampled
sources).  If any input Future is `Failed`, every declared output is
resolved to `Failed` and the dispatch function is never invoked;
otherwise the dispatch function runs and produces the outputs. -/
def executeWithShortCircuit {α : Type}
    (dispatch_fn : List (FutureState α) → List (FutureState α))
    (inputs : List (FutureState α)) (numOutputs : Nat) : DispatchResult α :=
  match firstFailure inputs with
  | some e => ⟨List.replicate numOutputs (.Failed e), false⟩
  | none => ⟨dispatch_fn inputs, true⟩

/-! ## GpuOpHandler (`gpu_op_handler.cc`) -/

/-- An entry of the GPU op registry.  `LookupOpEntry` in the source
always returns a valid entry pointer; an op that is unknown to the GPU
handler has `dispatch_fn == nullptr`, embedded here as `none` (the
dispatch function itself is identified by an opaque id). -/
structure GpuOpEntry where
  dispatch_fn : Option Nat
  deriving DecidableEq, Repr

/-- The GPU op registry: `LookupOpEntry` keyed by op name. -/
structure GpuOpRegistry where
  lookupOpEntry : String → GpuOpEntry

/-- A `CoreRuntimeOp` as constructed by `GpuOpHandler::MakeOp`
(lines 169–178): its invocation calls `ExecuteOnOpHandler` with
`update_chain=false` on the registry entry; it is built with
`is_fallback=false`, the handler's device, and argument tensor type
`"DenseGpu"`. -/
structure CoreRuntimeOp where
  update_chain : Bool
  entry : GpuOpEntry
  is_fallback : Bool
  device : String
  arg_tensor_type : String
  deriving DecidableEq, Repr

/-- Outcome of a `MakeOp` call on the GPU handler.  `nullDereference`
embeds the undefined behavior of calling `GetFallback()->MakeOp` when
the fallback pointer is null. -/
inductive MakeOpResult where
  | op : CoreRuntimeOp → MakeOpResult
  | error : String → MakeOpResult
  | nullDereference : MakeOpResult
  deriving DecidableEq, Repr

/-- The GPU op handler: its registry, its (nullable) fallback handler
— embedded as the fallback's `MakeOp` behaviour, `none` when the
`fallback` constructor argument was null — and its device name. -/
structure GpuOpHandler where
  op_registry : GpuOpRegistry
  fallback : Option (String → MakeOpResult)
  device : String

/-- `GpuOpHandler::MakeOp` (source lines 162–179): look the name up in
the GPU registry; if the entry's `dispatch_fn` is null, return
`GetFallback()->MakeOp(op_name)` — with no null check on the fallback
pointer — otherwise return a `CoreRuntimeOp` that dispatches the entry
with `update_chain=false`, `is_fallback=false`, the handler's device
and arg tensor type `"DenseGpu"`. -/
def GpuOpHandler.MakeOp (h : GpuOpHandler) (op_name : String) : MakeOpResult :=
  match (h.op_registry.lookupOpEntry op_name).dispatch_fn with
  | none =>
      match h.fallback with
      | some fallbackMakeOp => fallbackMakeOp op_name
      | none => .nullDereference
  | some _ =>
      .op { update_chain := false, entry := h.op_registry.lookupOpEntry op_name,
            is_fallback := false, device := h.device,
            arg_tensor_type := "DenseGpu" }

/-- Modelled from the spec: `ExecuteOnOpHandler` threads the Chain
token through a dispatch; only a side-effecting op executed with
`update_chain = true` replaces the input chain token by the
newly-produced one (`dispatch_utils` is not among the sampled
sources). -/
def executeOnOpHandler (update_chain : Bool) (inChain newChain : Nat) : Nat :=
  if update_chain then newChain else inChain

/-! ## Cross-device tensor copies (`gpu_op_handler.cc` lines 140–160) -/

/-- The dynamic tensor classification relevant to the GPU copy paths:
a `DenseGpuTensor`, a `DenseHostTensor`, or some other tensor kind. -/
inductive Tensor where
  | denseGpu : Nat → Tensor
  | denseHost : Nat → Tensor
  | otherTensor : Nat → Tensor
  deriving DecidableEq, Repr

/-- A `DenseHostTensor` — the static argument type of
`CopyHostTensorToDevice`. -/
structure DenseHostTensor where
  payload : Nat
  deriving DecidableEq, Repr

/-- The tensor a `DenseHostTensor` denotes. -/
def DenseHostTensor.toTensor (t : DenseHostTensor) : Tensor :=
  .denseHost t.payload

/-- Whether a tensor is of the GPU handler's native representation
(`dyn_cast<gpu::DenseGpuTensor>` succeeding). -/
def isNativeGpu : Tensor → Bool
  | .denseGpu _ => true
  | _ => false

/-- Observable outcome of a copy call on the GPU handler: either a
native conversion between the named devices (`ConvertTensor`), or the
call was handed to the fallback handler. -/
inductive CopyResult where
  | convertedNatively : String → String → Nat → CopyResult
  | deferredToFallback : Tensor → CopyResult
  deriving DecidableEq, Repr

/-- Whether a copy outcome was a deferral to the fallback handler. -/
def CopyResult.isDeferred : CopyResult → Bool
  | .deferredToFallback _ => true
  | _ => false

/-- `GpuOpHandler::CopyDeviceTensorToHost` (lines 140–151): if the
tensor dyn-casts to `DenseGpuTensor`, convert it from the handler's
device to the host device; otherwise return
`GetFallback()->CopyDeviceTensorToHost`. -/
def CopyDeviceTensorToHost (deviceName hostName : String)
    (tensor : Tensor) : CopyResult :=
  match tensor with
  | .denseGpu p => .convertedNatively deviceName hostName p
  | t => .deferredToFallback t

/-- `GpuOpHandler::CopyHostTensorToDevice` (lines 153–160): convert the
`DenseHostTensor` from the host device to the handler's device,
unconditionally — there is no branch and no fallback path. -/
def CopyHostTensorToDevice (deviceName hostName : String)
    (tensor : DenseHostTensor) : CopyResult :=
  .convertedNatively hostName deviceName tensor.payload

/-! ## Generic op-handler fallback chain (spec §4.4) -/

/-- Outcome of `MakeOp` on an op-handler chain: the op made by the
handler at a given position, or the terminal "no such operation for
this device chain" error. -/
inductive ChainMakeOpResult where
  | found : Nat → ChainMakeOpResult
  | noSuchOp : ChainMakeOpResult
  deriving DecidableEq, Repr

/-- Modelled from the spec: `MakeOp` over the op-handler fallback chain
(only the GPU handler's override is among the sampled sources; the
base-chain behaviour follows §4.4).  Each handler is represented by its
registry membership predicate.  The current handler looks the name up
in its own registry; if present, it returns a dispatchable op without
consulting any later handler; if absent it delegates to its fallback;
if absent with no fallback it returns the terminal error.  The second
component counts the handlers consulted. -/
def chainMakeOp : List (String → Bool) → String → ChainMakeOpResult × Nat
  | [], _ => (.noSuchOp, 0)
  | registry :: rest, name =>
      if registry name then (.found 0, 1)
      else
        let res := chainMakeOp rest name
        (match res.1 with
         | .found p => .found (p + 1)
         | .noSuchOp => .noSuchOp,
         res.2 + 1)

/-! ## Work Queue (spec §4.2; `task_queue.cc` only contributes the
out-of-line `kCapacity` definition, the queue body is not among the
sampled sources) -/

/-- Modelled from the spec: a per-worker task buffer with fixed
capacity `kCapacity`; tasks are identified by numbers.  The owner end
is the head of `tasks`, the thief end is the back. -/
structure WorkQueue where
  kCapacity : Nat
  tasks : List Nat
  deriving DecidableEq, Repr

/-- A fresh empty queue of the given fixed capacity. -/
def WorkQueue.empty (c : Nat) : WorkQueue := ⟨c, []⟩

/-- Modelled from the spec: `PushOwner` returns `false` — leaving the
queue untouched, neither blocking nor growing it — when the queue
already holds `kCapacity` tasks, and otherwise adds the task at the
owner end. -/
def WorkQueue.pushOwner (q : WorkQueue) (t : Nat) : WorkQueue × Bool :=
  if q.kCapacity ≤ q.tasks.length then (q, false)
  else (⟨q.kCapacity, t :: q.tasks⟩, true)

/-- Modelled from the spec: `PopOwner` removes from the owner end —
LIFO with respect to owner pushes. -/
def WorkQueue.popOwner (q : WorkQueue) : Option Nat × WorkQueue :=
  match q.tasks with
  | [] => (none, q)
  | t :: rest => (some t, ⟨q.kCapacity, rest⟩)

/-- Modelled from the spec: `PopThief` removes from the opposite end —
FIFO with respect to owner pushes. -/
def WorkQueue.popThief (q : WorkQueue) : Option Nat × WorkQueue :=
  match q.tasks.getLast? with
  | none => (none, q)
  | some t => (some t, ⟨q.kCapacity, q.tasks.dropLast⟩)

/-- Owner-side pushes of a whole list of tasks, collecting each push's
success flag in order. -/
def WorkQueue.pushList (q : WorkQueue) : List Nat → WorkQueue × List Bool
  | [] => (q, [])
  | t :: ts =>
      let r := q.pushOwner t
      let rest := r.1.pushList ts
      (rest.1, r.2 :: rest.2)

/-- Repeated owner pops (with fuel), collecting the popped tasks. -/
def drainOwnerFuel : Nat → WorkQueue → List Nat
  | 0, _ => []
  | n + 1, q =>
      match q.popOwner with
      | (none, _) => []
      | (some t, q') => t :: drainOwnerFuel n q'

/-- All tasks obtained by repeated owner pops, in pop order. -/
def WorkQueue.drainOwner (q : WorkQueue) : List Nat :=
  drainOwnerFuel q.tasks.length q

/-- Repeated thief pops (with fuel), collecting the popped tasks. -/
def drainThiefFuel : Nat → WorkQueue → List Nat
  | 0, _ => []
  | n + 1, q =>
      match q.popThief with
      | (none, _) => []
      | (some t, q') => t :: drainThiefFuel n q'

/-- All tasks obtained by repeated thief pops, in pop order. -/
def WorkQueue.drainThief (q : WorkQueue) : List Nat :=
  drainThiefFuel q.tasks.length q

/-! ## Distributed Context protocol (spec §4.5, §6;
`remote_message.proto` contributes the message shapes, the request
handlers are not among the sampled sources) -/

/-- `RemoteObjectIdProto`: structural identity is the
(`prefix_id`, `local_id`, `device`) triple. -/
structure RemoteObjectId where
  prefix_id : Nat
  local_id : Nat
  device : String
  deriving DecidableEq, Repr

/-- `RemoteExecuteOutput`: a requested output object id together with
its `need_metadata` flag. -/
structure RemoteExecuteOutput where
  id : RemoteObjectId
  need_metadata : Bool
  deriving DecidableEq, Repr

/-- Modelled from the spec: the per-session state of one
`DistributedContext` — its registered program names and the namespace
of live (allocated and not deleted) remote object ids. -/
structure DistributedContext where
  programs : List String
  liveObjects : List RemoteObjectId
  deriving DecidableEq, Repr

/-- Modelled from the spec: `RemoteExecute` fails if the program name
is unregistered in the context or any input object id is unknown or
already deleted there; on success it allocates the requested output
ids and answers with one metadata entry per requested output for
exactly the outputs whose `need_metadata` flag was set (`metadataOf`
stands for the produced metadata bytes of an output). -/
def remoteExecute (ctx : DistributedContext) (program_name : String)
    (inputs : List RemoteObjectId) (outputs : List RemoteExecuteOutput)
    (metadataOf : RemoteObjectId → List Nat) :
    Except String (DistributedContext × List (List Nat)) :=
  if ctx.programs.contains program_name then
    if inputs.all (fun i => ctx.liveObjects.contains i) then
      .ok ({ ctx with liveObjects := ctx.liveObjects ++ outputs.map (·.id) },
           (outputs.filter (·.need_metadata)).map (fun o => metadataOf o.id))
    else .error "unknown or deleted input object id"
  else .error "program not registered"

/-- Modelled from the spec: `DeleteRemoteObjects` removes every id of
the request from the context's object-id namespace; deleting an id
that is absent (e.g. already deleted) is a no-op — the documented
idempotent design choice — and the request always acks. -/
def deleteRemoteObjects (ctx : DistributedContext)
    (ids : List RemoteObjectId) : DistributedContext × Bool :=
  ({ ctx with
      liveObjects := ctx.liveObjects.filter (fun o => !(ids.contains o)) },
   true)

/-! ## Synchronous inline evaluation (spec §4.3, §7;
`sync_basics.mlir`) -/

/-- A value of the sync interpreter: a computed number or an error
value carrying a human-readable message. -/
inductive SyncValue where
  | val : Int → SyncValue
  | err : String → SyncValue
  deriving DecidableEq, Repr

/-- The op kinds exercised by `sync_basics.mlir`:
`tfrt.constant_s.i32`, `tfrt.add_s.i32` (reading two earlier
registers), and `tfrt_test.fail_s` which fails with a message. -/
inductive SyncOp where
  | constant : Int → SyncOp
  | add : Nat → Nat → SyncOp
  | fail : String → SyncOp
  deriving DecidableEq, Repr

/-- Modelled from the spec: evaluate one op against the registers
computed so far; an error input is re-propagated as a value rather
than assumed to be a success. -/
def evalOp (regs : List SyncValue) : SyncOp → SyncValue
  | .constant n => .val n
  | .add i j =>
      match regs.getD i (.err "use of undefined value"),
            regs.getD j (.err "use of undefined value") with
      | .val a, .val b => .val (a + b)
      | .err e, _ => .err e
      | _, .err e => .err e
  | .fail msg => .err msg

/-- A sync function: a straight-line body and the register index of
the returned value. -/
structure SyncFn where
  body : List SyncOp
  ret : Nat
  deriving DecidableEq, Repr

/-- Modelled from the spec: synchronous inline evaluation of one
function on the calling thread — each op appends its result register;
the requested output is the returned register's value. -/
def evalFn (f : SyncFn) : SyncValue :=
  (f.body.foldl (fun regs op => regs ++ [evalOp regs op]) []).getD f.ret
    (.err "use of undefined value")

/-- Modelled from the spec: a program evaluates each of its functions
independently. -/
def evalProgram (fns : List SyncFn) : List SyncValue := fns.map evalFn

end Tfrt

namespace Tfrt

lemma run_terminal_inv {α : Type} (es : List (FutEvent α)) :
    ∀ (s : FutSys α), s.state.isTerminal = true →
      (es.foldl FutSys.step s).state = s.state ∧
      (es.foldl FutSys.step s).pending = s.pending ∧
      (es.foldl FutSys.step s).ran = s.ran ++ registeredIds es := by
  induction es with
  | nil => intro s _; simp [registeredIds]
  | cons e es ih =>
    intro s hs
    cases e with
    | register cid =>
      have h := ih { s with ran := s.ran ++ [cid] } hs
      simp only [List.foldl_cons, FutSys.step, hs, if_true]
      simp only [registeredIds]
      refine ⟨h.1, h.2.1, ?_⟩
      rw [h.2.2]
      simp
    | resolve o =>
      have h := ih { s with doubleResolve := true } hs
      simp only [List.foldl_cons, FutSys.step, hs, if_true]
      simp only [registeredIds]
      exact h

lemma run_unresolved_inv {α : Type} (es : List (FutEvent α)) (hwf : eventsWF es) :
    ∀ (s : FutSys α), s.state = .Unresolved →
      (match firstOutcome es with
       | none =>
           (es.foldl FutSys.step s).state = FutureState.Unresolved ∧
           (es.foldl FutSys.step s).pending = s.pending ++ registeredIds es ∧
           (es.foldl FutSys.step s).ran = s.ran
       | some o =>
           (es.foldl FutSys.step s).state = o ∧
           (es.foldl FutSys.step s).pending = [] ∧
           (es.foldl FutSys.step s).ran = s.ran ++ s.pending ++ registeredIds es) := by
  induction es with
  | nil => intro s hsu; simp [firstOutcome, registeredIds, hsu]
  | cons e es ih =>
    intro s hsu
    have hterm : s.state.isTerminal = false := by rw [hsu]; rfl
    cases e with
    | register cid =>
      have hwf' : eventsWF es := hwf
      have h := ih hwf' { s with pending := s.pending ++ [cid] } hsu
      simp only [List.foldl_cons, FutSys.step, hterm, Bool.false_eq_true, if_false]
      simp only [firstOutcome, registeredIds]
      cases hfo : firstOutcome es with
      | none =>
        rw [hfo] at h
        refine ⟨h.1, ?_, h.2.2⟩
        rw [h.2.1]; simp
      | some o =>
        rw [hfo] at h
        refine ⟨h.1, h.2.1, ?_⟩
        rw [h.2.2]; simp
    | resolve o =>
      have ho : o.isTerminal = true := hwf.1
      have h := run_terminal_inv es
        { s with state := o, pending := [], ran := s.ran ++ s.pending }
        (by simpa using ho)
      simp only [List.foldl_cons, FutSys.step, hterm, Bool.false_eq_true, if_false]
      simp only [firstOutcome, ho, if_true]
      refine ⟨h.1, h.2.1, ?_⟩
      rw [h.2.2]; simp [registeredIds]

/-- C2: a Future reaches a terminal state at most once — a second
resolution attempt is rejected (fatal flag raised, state and value
unchanged) — and once the run of events contains a resolution with
outcome `o`, the Future ends in exactly state `o` with an empty pending
list and with every registered continuation having run exactly once, in
registration order: the ones registered before resolution fired at
resolution, the ones registered after ran immediately. -/
theorem future_single_assignment_and_continuations {α : Type}
    (es : List (FutEvent α)) (o : FutureState α)
    (hwf : eventsWF es) (hfo : firstOutcome es = some o) :
    ((FutSys.run es).state = o ∧
     (FutSys.run es).pending = [] ∧
     (FutSys.run es).ran = registeredIds es) ∧
    (∀ (s : FutSys α) (o' : FutureState α), s.state.isTerminal = true →
       (s.step (.resolve o')).state = s.state ∧
       (s.step (.resolve o')).pending = s.pending ∧
       (s.step (.resolve o')).ran = s.ran ∧
       (s.step (.resolve o')).doubleResolve = true) := by
  constructor
  · have h := run_unresolved_inv es hwf (FutSys.mkUnresolved α) rfl
    rw [hfo] at h
    exact ⟨h.1, h.2.1, by simpa [FutSys.run, FutSys.mkUnresolved] using h.2.2⟩
  · intro s o' hs
    simp [FutSys.step, hs]

lemma anyInputFailed_iff_firstFailure {α : Type} (inputs : List (FutureState α)) :
    anyInputFailed inputs = true ↔ ∃ e, firstFailure inputs = some e := by
  induction inputs with
  | nil => simp [anyInputFailed, firstFailure]
  | cons i rest ih =>
    cases i with
    | Unresolved => simpa [anyInputFailed, firstFailure] using ih
    | Concrete v => simpa [anyInputFailed, firstFailure] using ih
    | Failed e => simp [anyInputFailed, firstFailure]

/-- C1: when some input Future of a dispatch invocation is `Failed`,
every declared output resolves to `Failed` (the failure flows
downstream as a value) and the dispatch function is never invoked, so
none of the op's side effects occur. -/
theorem failed_input_short_circuits_dispatch {α : Type}
    (dispatch_fn : List (FutureState α) → List (FutureState α))
    (inputs : List (FutureState α)) (numOutputs : Nat)
    (hfail : anyInputFailed inputs = true) :
    (executeWithShortCircuit dispatch_fn inputs numOutputs).dispatchRan = false ∧
    (executeWithShortCircuit dispatch_fn inputs numOutputs).outputs.length
      = numOutputs ∧
    ∀ out ∈ (executeWithShortCircuit dispatch_fn inputs numOutputs).outputs,
      ∃ e, out = FutureState.Failed e := by
  obtain ⟨e, he⟩ := (anyInputFailed_iff_firstFailure inputs).mp hfail
  have hrun : executeWithShortCircuit dispatch_fn inputs numOutputs
      = ⟨List.replicate numOutputs (.Failed e), false⟩ := by
    unfold executeWithShortCircuit
    rw [he]
  rw [hrun]
  refine ⟨rfl, List.length_replicate _ _, ?_⟩
  intro out hout
  exact ⟨e, List.eq_of_mem_replicate hout⟩

/-- Witness for C1: one concrete input is `Failed`, two declared
outputs both resolve to `Failed`, dispatch never runs. -/
theorem failed_input_short_circuits_dispatch_witness :
    (executeWithShortCircuit (fun _ => [FutureState.Concrete (0 : Nat)])
        [FutureState.Concrete 1, FutureState.Failed "boom"] 2).dispatchRan
      = false ∧
    (executeWithShortCircuit (fun _ => [FutureState.Concrete (0 : Nat)])
        [FutureState.Concrete 1, FutureState.Failed "boom"] 2).outputs.length
      = 2 ∧
    ∀ out ∈ (executeWithShortCircuit (fun _ => [FutureState.Concrete (0 : Nat)])
        [FutureState.Concrete 1, FutureState.Failed "boom"] 2).outputs,
      ∃ e, out = FutureState.Failed e :=
  failed_input_short_circuits_dispatch
    (fun _ => [FutureState.Concrete 0])
    [FutureState.Concrete 1, FutureState.Failed "boom"] 2 (by rfl)

/-- Witness for C2 at a concrete event sequence: two continuations
registered before resolution, one after, a second (rejected)
resolution attempt. -/
theorem future_single_assignment_and_continuations_witness :
    ((FutSys.run [FutEvent.register 1, FutEvent.register 2,
        FutEvent.resolve (FutureState.Concrete (5 : Nat)),
        FutEvent.register 3,
        FutEvent.resolve (FutureState.Concrete 7)]).state
          = FutureState.Concrete 5 ∧
     (FutSys.run [FutEvent.register 1, FutEvent.register 2,
        FutEvent.resolve (FutureState.Concrete (5 : Nat)),
        FutEvent.register 3,
        FutEvent.resolve (FutureState.Concrete 7)]).pending = [] ∧
     (FutSys.run [FutEvent.register 1, FutEvent.register 2,
        FutEvent.resolve (FutureState.Concrete (5 : Nat)),
        FutEvent.register 3,
        FutEvent.resolve (FutureState.Concrete 7)]).ran = [1, 2, 3]) ∧
    (∀ (s : FutSys Nat) (o' : FutureState Nat), s.state.isTerminal = true →
       (s.step (.resolve o')).state = s.state ∧
       (s.step (.resolve o')).pending = s.pending ∧
       (s.step (.resolve o')).ran = s.ran ∧
       (s.step (.resolve o')).doubleResolve = true) :=
  future_single_assignment_and_continuations
    [FutEvent.register 1, FutEvent.register 2,
     FutEvent.resolve (FutureState.Concrete 5), FutEvent.register 3,
     FutEvent.resolve (FutureState.Concrete 7)]
    (FutureState.Concrete 5)
    (by simp [eventsWF, FutureState.isTerminal])
    (by rfl)

lemma chainMakeOp_absent (name : String) :
    ∀ chain : List (String → Bool), (∀ r ∈ chain, r name = false) →
      chainMakeOp chain name = (.noSuchOp, chain.length) := by
  intro chain
  induction chain with
  | nil => intro _; rfl
  | cons r rest ih =>
    intro habs
    have hr : r name = false := habs r (List.mem_cons_self r rest)
    have hrest := ih (fun r' hr' => habs r' (List.mem_cons_of_mem r hr'))
    simp only [chainMakeOp, hr, Bool.false_eq_true, if_false, hrest]
    rfl

lemma chainMakeOp_found_at (name : String) (hit : String → Bool)
    (hhit : hit name = true) :
    ∀ (pre suffix : List (String → Bool)), (∀ r ∈ pre, r name = false) →
      chainMakeOp (pre ++ hit :: suffix) name
        = (.found pre.length, pre.length + 1) := by
  intro pre
  induction pre with
  | nil =>
    intro suffix _
    simp only [List.nil_append, chainMakeOp, hhit, if_true, List.length_nil]
  | cons r rest ih =>
    intro suffix habs
    have hr : r name = false := habs r (List.mem_cons_self r rest)
    have hrest := ih suffix (fun r' hr' => habs r' (List.mem_cons_of_mem r hr'))
    simp [chainMakeOp, hr, hrest, List.append_eq]

/-- C3: on an op-handler chain, when the op is registered only in the
handler at position `k` (after `k` op-less handlers), `MakeOp` resolves
it to that handler's op after consulting exactly `k + 1` handlers,
whatever handlers follow — so no later handler is consulted and
resolution takes at most `k` fallback hops; and on a chain in which no
handler has the op (the last handler has no fallback), `MakeOp`
returns the terminal "no such operation for this device chain" error
after consulting the whole chain. -/
theorem makeop_chain_resolution (name : String)
    (pre suffix chain : List (String → Bool)) (hit : String → Bool)
    (hpre : ∀ r ∈ pre, r name = false) (hhit : hit name = true)
    (habsent : ∀ r ∈ chain, r name = false) :
    chainMakeOp (pre ++ hit :: suffix) name
      = (.found pre.length, pre.length + 1) ∧
    chainMakeOp chain name = (.noSuchOp, chain.length) :=
  ⟨chainMakeOp_found_at name hit hhit pre suffix hpre,
   chainMakeOp_absent name chain habsent⟩

/-- Witness for C3: a chain of two registries without the op, one with
it, then one more that also has it; the op resolves at position 2 with
3 handlers consulted and the fourth handler is never consulted; a
2-handler chain without the op yields the terminal error. -/
theorem makeop_chain_resolution_witness :
    chainMakeOp
        (List.replicate 2 (fun _ => false)
          ++ (fun n => n == "matmul") :: [fun _ => true]) "matmul"
      = (.found 2, 3) ∧
    chainMakeOp (List.replicate 2 (fun _ => false)) "matmul"
      = (.noSuchOp, 2) :=
  makeop_chain_resolution "matmul" (List.replicate 2 (fun _ => false))
    [fun _ => true] (List.replicate 2 (fun _ => false)) (fun n => n == "matmul")
    (fun r hr => by rw [List.eq_of_mem_replicate hr])
    (by decide)
    (fun r hr => by rw [List.eq_of_mem_replicate hr])

/-- C9: `GpuOpHandler::MakeOp` requires a non-null fallback.  With a
null fallback, an op name whose registry entry has a null
`dispatch_fn` leads to a null-pointer dereference (not the terminal
"no such operation" error); with a non-null fallback, the GPU handler
either returns its own registry op or exactly the fallback's result —
its own error branch is unreachable (it has none). -/
theorem gpu_makeop_requires_fallback (h : GpuOpHandler) (name : String) :
    (h.fallback = none →
       (h.op_registry.lookupOpEntry name).dispatch_fn = none →
       h.MakeOp name = .nullDereference) ∧
    (∀ fallbackMakeOp, h.fallback = some fallbackMakeOp →
       ((h.op_registry.lookupOpEntry name).dispatch_fn = none ∧
          h.MakeOp name = fallbackMakeOp name) ∨
       (∃ d, (h.op_registry.lookupOpEntry name).dispatch_fn = some d) ∧
          h.MakeOp name
            = .op { update_chain := false,
                    entry := h.op_registry.lookupOpEntry name,
                    is_fallback := false, device := h.device,
                    arg_tensor_type := "DenseGpu" }) := by
  constructor
  · intro hfb hdf
    unfold GpuOpHandler.MakeOp
    rw [hdf, hfb]
  · intro fb hfb
    cases hdf : (h.op_registry.lookupOpEntry name).dispatch_fn with
    | none =>
      left
      refine ⟨rfl, ?_⟩
      unfold GpuOpHandler.MakeOp
      rw [hdf, hfb]
    | some d =>
      right
      refine ⟨⟨d, rfl⟩, ?_⟩
      unfold GpuOpHandler.MakeOp
      rw [hdf]

/-- Witness for C9: a GPU handler built with a null fallback and an
empty registry dereferences null on an unknown op name. -/
theorem gpu_makeop_requires_fallback_witness :
    GpuOpHandler.MakeOp ⟨⟨fun _ => ⟨none⟩⟩, none, "gpu"⟩ "some_unknown_op"
      = MakeOpResult.nullDereference :=
  (gpu_makeop_requires_fallback ⟨⟨fun _ => ⟨none⟩⟩, none, "gpu"⟩
    "some_unknown_op").1 rfl rfl

/-- C10: every op that `GpuOpHandler::MakeOp` produces from the GPU
registry carries `update_chain = false`, so its dispatch never replaces
the input Chain token — the chain is left unchanged by every GPU
dispatch and no GPU op is treated as side-effecting. -/
theorem gpu_ops_never_update_chain (h : GpuOpHandler) (name : String) (d : Nat)
    (hfound : (h.op_registry.lookupOpEntry name).dispatch_fn = some d) :
    ∃ c, h.MakeOp name = .op c ∧ c.update_chain = false ∧
      ∀ inChain newChain : Nat,
        executeOnOpHandler c.update_chain inChain newChain = inChain := by
  have hmk : h.MakeOp name
      = .op { update_chain := false,
              entry := h.op_registry.lookupOpEntry name,
              is_fallback := false, device := h.device,
              arg_tensor_type := "DenseGpu" } := by
    unfold GpuOpHandler.MakeOp
    rw [hfound]
  exact ⟨_, hmk, rfl, fun inChain newChain => rfl⟩

/-- Witness for C10: a registry whose every entry has a dispatch
function; the produced op has `update_chain = false` and dispatching it
leaves the chain token unchanged. -/
theorem gpu_ops_never_update_chain_witness :
    ∃ c, GpuOpHandler.MakeOp ⟨⟨fun _ => ⟨some 0⟩⟩, none, "gpu"⟩ "matmul"
        = .op c ∧
      c.update_chain = false ∧
      ∀ inChain newChain : Nat,
        executeOnOpHandler c.update_chain inChain newChain = inChain :=
  gpu_ops_never_update_chain ⟨⟨fun _ => ⟨some 0⟩⟩, none, "gpu"⟩ "matmul" 0 rfl

/-- C4, counterexample to the claim as stated: for
`CopyHostTensorToDevice` the argument — a `DenseHostTensor` — is never
of the handler's native (`DenseGpuTensor`) representation, yet the
copy is not deferred to the fallback: the handler converts it
unconditionally (source lines 153–160 have no fallback path). -/
theorem gpu_copy_deferral_counterexample :
    isNativeGpu (DenseHostTensor.toTensor ⟨7⟩) = false ∧
    (CopyHostTensorToDevice "gpu" "host" ⟨7⟩).isDeferred = false ∧
    CopyHostTensorToDevice "gpu" "host" ⟨7⟩
      = CopyResult.convertedNatively "host" "gpu" 7 :=
  ⟨rfl, rfl, rfl⟩

/-- C4, amended: `CopyDeviceTensorToHost` defers to the fallback
exactly when the tensor is not the handler's native `DenseGpuTensor`
(converting natively when it is); `CopyHostTensorToDevice` always
converts the host tensor to the device representation and has no
fallback path. -/
theorem gpu_copy_fallback_amended (deviceName hostName : String) :
    (∀ t : Tensor, isNativeGpu t = false →
        CopyDeviceTensorToHost deviceName hostName t
          = CopyResult.deferredToFallback t) ∧
    (∀ p : Nat, CopyDeviceTensorToHost deviceName hostName (.denseGpu p)
        = CopyResult.convertedNatively deviceName hostName p) ∧
    (∀ t : DenseHostTensor, CopyHostTensorToDevice deviceName hostName t
        = CopyResult.convertedNatively hostName deviceName t.payload) := by
  refine ⟨?_, fun p => rfl, fun t => rfl⟩
  intro t ht
  cases t with
  | denseGpu p => simp [isNativeGpu] at ht
  | denseHost p => rfl
  | otherTensor p => rfl

/-- Witness for the amended C4: a non-GPU tensor is deferred to the
fallback, a GPU tensor and a host tensor are converted natively. -/
theorem gpu_copy_fallback_amended_witness :
    CopyDeviceTensorToHost "gpu" "host" (Tensor.otherTensor 3)
      = CopyResult.deferredToFallback (Tensor.otherTensor 3) ∧
    CopyDeviceTensorToHost "gpu" "host" (Tensor.denseGpu 4)
      = CopyResult.convertedNatively "gpu" "host" 4 ∧
    CopyHostTensorToDevice "gpu" "host" ⟨7⟩
      = CopyResult.convertedNatively "host" "gpu" 7 :=
  ⟨(gpu_copy_fallback_amended "gpu" "host").1 (Tensor.otherTensor 3) rfl,
   (gpu_copy_fallback_amended "gpu" "host").2.1 4,
   (gpu_copy_fallback_amended "gpu" "host").2.2 ⟨7⟩⟩

lemma drainOwnerFuel_eq (l : List Nat) :
    ∀ c : Nat, drainOwnerFuel l.length ⟨c, l⟩ = l := by
  induction l with
  | nil => intro c; rfl
  | cons t rest ih =>
    intro c
    simp only [List.length_cons, drainOwnerFuel, WorkQueue.popOwner, ih]

lemma WorkQueue.drainOwner_eq (q : WorkQueue) : q.drainOwner = q.tasks := by
  cases q with
  | mk c l => exact drainOwnerFuel_eq l c

lemma drainThiefFuel_eq (l : List Nat) :
    ∀ c : Nat, drainThiefFuel l.length ⟨c, l⟩ = l.reverse := by
  induction l using List.reverseRecOn with
  | nil => intro c; rfl
  | append_singleton rest t ih =>
    intro c
    have hlen : (rest ++ [t]).length = rest.length + 1 := by simp
    rw [hlen]
    simp only [drainThiefFuel, WorkQueue.popThief, List.getLast?_concat,
      List.dropLast_concat, ih]
    simp

lemma WorkQueue.drainThief_eq (q : WorkQueue) : q.drainThief = q.tasks.reverse := by
  cases q with
  | mk c l => exact drainThiefFuel_eq l c

lemma pushList_all_fit : ∀ (ts : List Nat) (q : WorkQueue),
    q.tasks.length + ts.length ≤ q.kCapacity →
    (q.pushList ts).1 = ⟨q.kCapacity, ts.reverse ++ q.tasks⟩ ∧
    (q.pushList ts).2 = List.replicate ts.length true := by
  intro ts
  induction ts with
  | nil =>
    intro q _
    exact ⟨by cases q; rfl, rfl⟩
  | cons t rest ih =>
    intro q hfit
    have hlt : q.tasks.length < q.kCapacity := by
      simp only [List.length_cons] at hfit
      omega
    have hpush : q.pushOwner t = (⟨q.kCapacity, t :: q.tasks⟩, true) := by
      unfold WorkQueue.pushOwner
      rw [if_neg (by omega)]
    have hfit' : (WorkQueue.mk q.kCapacity (t :: q.tasks)).tasks.length
        + rest.length ≤ (WorkQueue.mk q.kCapacity (t :: q.tasks)).kCapacity := by
      simp only [List.length_cons] at hfit ⊢
      omega
    have hrest := ih ⟨q.kCapacity, t :: q.tasks⟩ hfit'
    simp only [WorkQueue.pushList, hpush]
    refine ⟨?_, ?_⟩
    · rw [hrest.1]
      simp
    · rw [hrest.2]
      simp [List.replicate_succ]

/-- C5: an owner push onto a full Work Queue is rejected — it returns
`false` and leaves the queue (capacity and resident tasks) exactly as
it was, neither blocking nor growing it; a sequence of owner pushes
that fits the capacity all succeed, after which owner pops return the
tasks in LIFO order and thief pops in FIFO order; in particular 5
owner pushes onto a capacity-4 queue see the 5th push fail while owner
pops yield `[4, 3, 2, 1]`. -/
theorem work_queue_capacity_and_order (q : WorkQueue) (t c : Nat)
    (ts : List Nat) (hfull : q.kCapacity ≤ q.tasks.length)
    (hfit : ts.length ≤ c) :
    q.pushOwner t = (q, false) ∧
    ((WorkQueue.empty c).pushList ts).2 = List.replicate ts.length true ∧
    ((WorkQueue.empty c).pushList ts).1.drainOwner = ts.reverse ∧
    ((WorkQueue.empty c).pushList ts).1.drainThief = ts ∧
    ((WorkQueue.empty 4).pushList [1, 2, 3, 4, 5]).2
      = [true, true, true, true, false] ∧
    ((WorkQueue.empty 4).pushList [1, 2, 3, 4, 5]).1.drainOwner
      = [4, 3, 2, 1] := by
  have hempty : (WorkQueue.empty c).tasks.length + ts.length
      ≤ (WorkQueue.empty c).kCapacity := by
    simpa [WorkQueue.empty] using hfit
  have hp := pushList_all_fit ts (WorkQueue.empty c) hempty
  refine ⟨?_, hp.2, ?_, ?_, by decide, by decide⟩
  · unfold WorkQueue.pushOwner
    rw [if_pos hfull]
  · rw [hp.1, WorkQueue.drainOwner_eq]
    simp [WorkQueue.empty]
  · rw [hp.1, WorkQueue.drainThief_eq]
    simp [WorkQueue.empty]

/-- Witness for C5: a full capacity-2 queue rejects a push unchanged;
two pushes onto an empty capacity-3 queue succeed and drain as LIFO
`[2, 1]` for the owner and FIFO `[1, 2]` for a thief. -/
theorem work_queue_capacity_and_order_witness :
    WorkQueue.pushOwner ⟨2, [9, 8]⟩ 5 = (⟨2, [9, 8]⟩, false) ∧
    ((WorkQueue.empty 3).pushList [1, 2]).2 = List.replicate 2 true ∧
    ((WorkQueue.empty 3).pushList [1, 2]).1.drainOwner = [1, 2].reverse ∧
    ((WorkQueue.empty 3).pushList [1, 2]).1.drainThief = [1, 2] ∧
    ((WorkQueue.empty 4).pushList [1, 2, 3, 4, 5]).2
      = [true, true, true, true, false] ∧
    ((WorkQueue.empty 4).pushList [1, 2, 3, 4, 5]).1.drainOwner
      = [4, 3, 2, 1] :=
  work_queue_capacity_and_order ⟨2, [9, 8]⟩ 5 3 [1, 2]
    (by decide) (by decide)

/-- C6: `RemoteExecute` fails when the program name is not registered
in the context; fails when some input object id is unknown or already
deleted there; and on success answers with exactly one metadata entry
per requested output whose `need_metadata` flag was set, in request
order. -/
theorem remote_execute_contract (ctx : DistributedContext) (p : String)
    (inputs : List RemoteObjectId) (outputs : List RemoteExecuteOutput)
    (metadataOf : RemoteObjectId → List Nat) :
    (ctx.programs.contains p = false →
       remoteExecute ctx p inputs outputs metadataOf
         = .error "program not registered") ∧
    (ctx.programs.contains p = true →
     inputs.all (fun i => ctx.liveObjects.contains i) = false →
       remoteExecute ctx p inputs outputs metadataOf
         = .error "unknown or deleted input object id") ∧
    (ctx.programs.contains p = true →
     inputs.all (fun i => ctx.liveObjects.contains i) = true →
       remoteExecute ctx p inputs outputs metadataOf
         = .ok ({ ctx with liveObjects := ctx.liveObjects ++ outputs.map (·.id) },
                (outputs.filter (·.need_metadata)).map (fun o => metadataOf o.id)) ∧
       ∀ meta, remoteExecute ctx p inputs outputs metadataOf
           = .ok ({ ctx with
                     liveObjects := ctx.liveObjects ++ outputs.map (·.id) }, meta) →
         meta.length = outputs.countP (·.need_metadata)) := by
  refine ⟨?_, ?_, ?_⟩
  · intro hp
    unfold remoteExecute
    rw [hp]
    rfl
  · intro hp hin
    unfold remoteExecute
    rw [hp, hin]
    rfl
  · intro hp hin
    have hok : remoteExecute ctx p inputs outputs metadataOf
        = .ok ({ ctx with liveObjects := ctx.liveObjects ++ outputs.map (·.id) },
               (outputs.filter (·.need_metadata)).map (fun o => metadataOf o.id)) := by
      unfold remoteExecute
      rw [hp, hin]
      rfl
    refine ⟨hok, ?_⟩
    intro meta hmeta
    rw [hok] at hmeta
    injection hmeta with h
    have h2 : (outputs.filter (·.need_metadata)).map (fun o => metadataOf o.id)
        = meta := by
      simpa using congrArg Prod.snd h
    rw [← h2]
    simp [← List.countP_eq_length_filter]

/-- Witness for C6 on a concrete context: an unregistered program
fails, a deleted input id fails, and a successful execution answers
metadata for exactly the flagged outputs. -/
theorem remote_execute_contract_witness :
    (remoteExecute ⟨["add"], [⟨1, 1, "cpu"⟩]⟩ "mul" [⟨1, 1, "cpu"⟩]
        [⟨⟨1, 2, "cpu"⟩, true⟩] (fun _ => [0])
      = .error "program not registered") ∧
    (remoteExecute ⟨["add"], [⟨1, 1, "cpu"⟩]⟩ "add" [⟨1, 9, "cpu"⟩]
        [⟨⟨1, 2, "cpu"⟩, true⟩] (fun _ => [0])
      = .error "unknown or deleted input object id") ∧
    (remoteExecute ⟨["add"], [⟨1, 1, "cpu"⟩]⟩ "add" [⟨1, 1, "cpu"⟩]
        [⟨⟨1, 2, "cpu"⟩, true⟩, ⟨⟨1, 3, "cpu"⟩, false⟩] (fun _ => [5])
      = .ok (⟨["add"], [⟨1, 1, "cpu"⟩, ⟨1, 2, "cpu"⟩, ⟨1, 3, "cpu"⟩]⟩, [[5]])) := by
  refine ⟨?_, ?_, ?_⟩
  · exact (remote_execute_contract ⟨["add"], [⟨1, 1, "cpu"⟩]⟩ "mul"
      [⟨1, 1, "cpu"⟩] [⟨⟨1, 2, "cpu"⟩, true⟩] (fun _ => [0])).1 (by decide)
  · exact (remote_execute_contract ⟨["add"], [⟨1, 1, "cpu"⟩]⟩ "add"
      [⟨1, 9, "cpu"⟩] [⟨⟨1, 2, "cpu"⟩, true⟩] (fun _ => [0])).2.1
      (by decide) (by decide)
  · exact ((remote_execute_contract ⟨["add"], [⟨1, 1, "cpu"⟩]⟩ "add"
      [⟨1, 1, "cpu"⟩] [⟨⟨1, 2, "cpu"⟩, true⟩, ⟨⟨1, 3, "cpu"⟩, false⟩]
      (fun _ => [5])).2.2 (by decide) (by decide)).1

/-- C7: `DeleteRemoteObjects` is idempotent — issuing the same request
twice leaves the context's object-id namespace exactly as issuing it
once — and it always acks (never crashes), also on ids that are
already deleted. -/
theorem delete_remote_objects_idempotent (ctx : DistributedContext)
    (ids : List RemoteObjectId) :
    deleteRemoteObjects (deleteRemoteObjects ctx ids).1 ids
      = deleteRemoteObjects ctx ids ∧
    (deleteRemoteObjects ctx ids).2 = true := by
  refine ⟨?_, rfl⟩
  unfold deleteRemoteObjects
  simp [List.filter_filter]

/-- C8: a failing op in a synchronously evaluated function surfaces as
an error value carrying the human-readable message on that function's
requested output; evaluation of the surrounding program decomposes
function by function, so sibling functions still return their computed
values; in particular the `sync_basics.mlir` pair evaluates to `43`
and the error `"something bad happened"`. -/
theorem sync_failure_isolated (pre post : List SyncFn) (msg : String) :
    evalFn ⟨[SyncOp.fail msg], 0⟩ = SyncValue.err msg ∧
    evalProgram (pre ++ ⟨[SyncOp.fail msg], 0⟩ :: post)
      = evalProgram pre ++ SyncValue.err msg :: evalProgram post ∧
    evalProgram [⟨[.constant 42, .constant 1, .add 0 1], 2⟩,
                 ⟨[.fail "something bad happened"], 0⟩]
      = [SyncValue.val 43, SyncValue.err "something bad happened"] := by
  refine ⟨rfl, ?_, by decide⟩
  unfold evalProgram
  simp only [List.map_append, List.map_cons]
  rfl

end Tfrt
